import Mathlib

/-!
Verification of the Obsidian vault validator (`scripts/validate_vault.py`).

The Python source is shallowly embedded below: each Python function or method
is a Lean definition of the same name (module-level helpers keep their exact
names; methods are named after the method).  YAML scalar values are embedded
as `PyVal`; Python dicts that preserve insertion order (the entity collection,
the duplicates map) are embedded as association lists.
-/

/-- A Python/YAML scalar or list value, as handed to `parse_list_field` and
stored in an entity's raw frontmatter. -/
inductive PyVal where
  | none
  | str (s : String)
  | int (n : Int)
  | list (xs : List PyVal)
deriving Repr

/-- Python truthiness for the `PyVal` fragment: `None`, `""`, `0` and `[]`
are falsy, everything else truthy. -/
def pyTruthy : PyVal → Bool
  | PyVal.none => false
  | PyVal.str s => !(s == "")
  | PyVal.int n => !(n == 0)
  | PyVal.list xs => !xs.isEmpty

mutual

/-- Python `repr` on the `PyVal` fragment (used by `str` on lists). -/
def pyRepr : PyVal → String
  | PyVal.none => "None"
  | PyVal.str s => "'" ++ s ++ "'"
  | PyVal.int n => toString n
  | PyVal.list xs => "[" ++ String.intercalate ", " (pyReprList xs) ++ "]"

/-- `pyRepr` mapped over a list (explicit for structural recursion). -/
def pyReprList : List PyVal → List String
  | [] => []
  | x :: xs => pyRepr x :: pyReprList xs

end

/-- Python `str()` on the `PyVal` fragment. -/
def pyStr : PyVal → String
  | PyVal.none => "None"
  | PyVal.str s => s
  | PyVal.int n => toString n
  | PyVal.list xs => "[" ++ String.intercalate ", " (pyReprList xs) ++ "]"

/-- Python `needle in s` on strings, for a one-character needle (the only
shape the source uses: `',' in value`). -/
def strContainsChar (s : String) (c : Char) : Bool :=
  s.data.contains c

/-- Python `s.startswith(prefix_str)`. -/
def strStartsWith (s prefix_str : String) : Bool :=
  prefix_str.data.isPrefixOf s.data

/-- Splitting a character list at every occurrence of `c` (Python
`s.split(c)` semantics: n separators give n+1 pieces, empty pieces kept). -/
def splitOnCharAux (c : Char) : List Char → List Char → List (List Char)
  | [], acc => [acc.reverse]
  | x :: xs, acc =>
      if x == c then acc.reverse :: splitOnCharAux c xs []
      else splitOnCharAux c xs (x :: acc)

/-- Python `s.split(',')`. -/
def pySplitComma (s : String) : List String :=
  (splitOnCharAux ',' s.data []).map String.mk

/-- Python `str.strip()` whitespace (the ASCII whitespace characters). -/
def isPyWhitespace (c : Char) : Bool :=
  c == ' ' || c == '\t' || c == '\n' || c == '\r' || c == '\x0b' || c == '\x0c'

/-- Python `s.strip()`. -/
def pyStrip (s : String) : String :=
  String.mk (((s.data.dropWhile isPyWhitespace).reverse.dropWhile isPyWhitespace).reverse)

/-- `ENTITY_PREFIXES` from the source: id prefix to entity type, in the
dict's literal (insertion) order. -/
def ENTITY_PREFIXES : List (String × String) :=
  [("M-", "milestone"), ("S-", "story"), ("T-", "task"),
   ("DEC-", "decision"), ("DOC-", "document")]

/-- `get_entity_type_from_id`: first matching prefix wins, `None` if no
prefix matches. -/
def get_entity_type_from_id (entity_id : String) : Option String :=
  (ENTITY_PREFIXES.find? (fun p => strStartsWith entity_id p.1)).map (fun p => p.2)

/-- `parse_list_field`: a relationship-field value normalized to a list of
strings.  `None` gives `[]`; a list keeps its truthy elements, stringified;
a string with a comma is split on commas and each piece stripped (empty
pieces dropped); a non-empty string without a comma is wrapped; the empty
string, and any other scalar (the final `return []`), give `[]`. -/
def parse_list_field (value : PyVal) : List String :=
  match value with
  | PyVal.none => []
  | PyVal.list xs => (xs.filter pyTruthy).map pyStr
  | PyVal.str s =>
      if strContainsChar s ',' then
        ((pySplitComma s).map pyStrip).filter (fun v => !(v == ""))
      else if s == "" then [] else [s]
  | PyVal.int _ => []

/-- The `Entity` dataclass.  `parent` and `supersedes` are optional single
ids; the relationship fields are lists of ids as produced by
`parse_list_field`. -/
structure Entity where
  id : String
  type : String
  title : String
  status : String
  file_path : String
  parent : Option String
  depends_on : List String
  blocked_by : List String
  implements : List String
  enables : List String
  implementedBy : List String
  supersedes : Option String
  raw_frontmatter : List (String × PyVal)
deriving Repr

/-- The `ValidationError` dataclass: one finding. -/
structure ValidationError where
  entity_id : String
  field : String
  message : String
  severity : String
  file_path : String
deriving Repr, DecidableEq

/-- The entity collection `Dict[str, Entity]`: an insertion-ordered
association list, as a Python dict is. -/
abbrev EntityMap := List (String × Entity)

/-- Python `key in dict` on the collection. -/
def containsId (m : EntityMap) (k : String) : Bool :=
  m.any (fun p => p.1 == k)

/-- Python `dict.get(key)` on the collection. -/
def lookupEntity (m : EntityMap) (k : String) : Option Entity :=
  (m.find? (fun p => p.1 == k)).map (fun p => p.2)

/-- Python truthiness of an optional string (`if entity.parent:`):
`None` and `""` are falsy. -/
def optTruthy : Option String → Bool
  | Option.none => false
  | Option.some s => !(s == "")

/-- `DECISION_ENABLES_VALID_TYPES` (source order of the set literal). -/
def DECISION_ENABLES_VALID_TYPES : List String := ["document", "story", "task"]

/-- `DOCUMENT_IMPLEMENTED_BY_VALID_TYPES`. -/
def DOCUMENT_IMPLEMENTED_BY_VALID_TYPES : List String := ["story", "task"]

/-- `IMPLEMENTS_VALID_TYPES`. -/
def IMPLEMENTS_VALID_TYPES : List String := ["document"]

/-- `DEPENDS_ON_VALID_TYPES` with the dict's `.get(type, set())` default. -/
def DEPENDS_ON_VALID_TYPES : String → List String
  | "milestone" => ["milestone", "decision"]
  | "story" => ["story", "decision", "document"]
  | "task" => ["task", "decision"]
  | "decision" => ["decision"]
  | "document" => ["document", "decision"]
  | _ => []

/-- Message of an existence finding (`_validate_references_exist`), by the
kind of noun the source uses for the field. -/
def refNotFoundMsg (noun refId : String) : String :=
  noun ++ " entity '" ++ refId ++ "' not found"

/-- `VaultValidator._validate_references_exist`: every referenced id must be
a key of the collection; `blocked_by` misses are warnings, all others
errors.  `parent` and `supersedes` are checked only when truthy. -/
def validate_references_exist (entities : EntityMap) (e : Entity) :
    List ValidationError :=
  (e.depends_on.flatMap fun depId =>
    if containsId entities depId then []
    else [⟨e.id, "depends_on", refNotFoundMsg "Referenced" depId, "error", e.file_path⟩])
  ++ (e.blocked_by.flatMap fun blockerId =>
    if containsId entities blockerId then []
    else [⟨e.id, "blocked_by", refNotFoundMsg "Referenced" blockerId, "warning", e.file_path⟩])
  ++ (e.implements.flatMap fun implId =>
    if containsId entities implId then []
    else [⟨e.id, "implements", "Referenced document '" ++ implId ++ "' not found", "error", e.file_path⟩])
  ++ (e.enables.flatMap fun enabledId =>
    if containsId entities enabledId then []
    else [⟨e.id, "enables", refNotFoundMsg "Referenced" enabledId, "error", e.file_path⟩])
  ++ (e.implementedBy.flatMap fun implById =>
    if containsId entities implById then []
    else [⟨e.id, "implemented_by", refNotFoundMsg "Referenced" implById, "error", e.file_path⟩])
  ++ (match e.parent with
    | Option.some p =>
        if !(p == "") && !(containsId entities p) then
          [⟨e.id, "parent", refNotFoundMsg "Parent" p, "error", e.file_path⟩]
        else []
    | Option.none => [])
  ++ (match e.supersedes with
    | Option.some s =>
        if !(s == "") && !(containsId entities s) then
          [⟨e.id, "supersedes", refNotFoundMsg "Superseded" s, "error", e.file_path⟩]
        else []
    | Option.none => [])

/-- Message of a type-compatibility finding for `enables`. -/
def enablesMsg (targetType enabledId : String) : String :=
  "Decision cannot enable " ++ targetType ++ " '" ++ enabledId ++
    "'. Valid types: " ++ String.intercalate ", " DECISION_ENABLES_VALID_TYPES

/-- `VaultValidator._validate_decision_enables`: only for decisions, only
for resolving targets. -/
def validate_decision_enables (entities : EntityMap) (e : Entity) :
    List ValidationError :=
  if e.type == "decision" then
    e.enables.flatMap fun enabledId =>
      match lookupEntity entities enabledId with
      | Option.some enabled =>
          if enabled.type ∈ DECISION_ENABLES_VALID_TYPES then []
          else [⟨e.id, "enables", enablesMsg enabled.type enabledId, "error", e.file_path⟩]
      | Option.none => []
  else []

/-- Message of a type-compatibility finding for `implemented_by`. -/
def implementedByMsg (targetType implById : String) : String :=
  "Document cannot be implemented by " ++ targetType ++ " '" ++ implById ++
    "'. Valid types: " ++ String.intercalate ", " DOCUMENT_IMPLEMENTED_BY_VALID_TYPES

/-- `VaultValidator._validate_document_implemented_by`. -/
def validate_document_implementedBy (entities : EntityMap) (e : Entity) :
    List ValidationError :=
  if e.type == "document" then
    e.implementedBy.flatMap fun implById =>
      match lookupEntity entities implById with
      | Option.some implBy =>
          if implBy.type ∈ DOCUMENT_IMPLEMENTED_BY_VALID_TYPES then []
          else [⟨e.id, "implemented_by", implementedByMsg implBy.type implById, "error", e.file_path⟩]
      | Option.none => []
  else []

/-- Message of a type-compatibility finding for `implements`. -/
def implementsMsg (sourceType targetType implId : String) : String :=
  sourceType ++ " cannot implement " ++ targetType ++ " '" ++ implId ++
    "'. Valid types: " ++ String.intercalate ", " IMPLEMENTS_VALID_TYPES

/-- `VaultValidator._validate_implements`: only stories, tasks and
milestones are checked. -/
def validate_implements (entities : EntityMap) (e : Entity) :
    List ValidationError :=
  if e.type == "story" || e.type == "task" || e.type == "milestone" then
    e.implements.flatMap fun implId =>
      match lookupEntity entities implId with
      | Option.some impl =>
          if impl.type ∈ IMPLEMENTS_VALID_TYPES then []
          else [⟨e.id, "implements", implementsMsg e.type impl.type implId, "error", e.file_path⟩]
      | Option.none => []
  else []

/-- Message of a type-compatibility finding for `depends_on`. -/
def dependsOnMsg (sourceType targetType depId : String) : String :=
  sourceType ++ " cannot depend on " ++ targetType ++ " '" ++ depId ++
    "'. Valid types: " ++ String.intercalate ", " (DEPENDS_ON_VALID_TYPES sourceType)

/-- `VaultValidator._validate_depends_on`: allowed target types per source
type from `DEPENDS_ON_VALID_TYPES`. -/
def validate_depends_on (entities : EntityMap) (e : Entity) :
    List ValidationError :=
  e.depends_on.flatMap fun depId =>
    match lookupEntity entities depId with
    | Option.some dep =>
        if dep.type ∈ DEPENDS_ON_VALID_TYPES e.type then []
        else [⟨e.id, "depends_on", dependsOnMsg e.type dep.type depId, "error", e.file_path⟩]
    | Option.none => []

/-- Message of a parent-type finding. -/
def parentTypeMsg (expected actual : String) : String :=
  "Invalid parent type: expected '" ++ expected ++ "', got '" ++ actual ++ "'"

/-- The `expected_parent_types` dict of `_validate_parent_type`. -/
def expected_parent_types : String → Option String
  | "story" => Option.some "milestone"
  | "task" => Option.some "story"
  | _ => Option.none

/-- `VaultValidator._validate_parent_type`: skipped when `parent` is falsy
or does not resolve; only stories and tasks have an expected parent type. -/
def validate_parent_type (entities : EntityMap) (e : Entity) :
    List ValidationError :=
  match e.parent with
  | Option.none => []
  | Option.some p =>
      if p == "" then []
      else
        match lookupEntity entities p with
        | Option.none => []
        | Option.some parent =>
            match expected_parent_types e.type with
            | Option.some expected =>
                if parent.type == expected then []
                else [⟨e.id, "parent", parentTypeMsg expected parent.type, "error", e.file_path⟩]
            | Option.none => []

/-- `VaultValidator._validate_entity`: the six checks in source order,
findings appended in that order. -/
def validate_entity (entities : EntityMap) (e : Entity) : List ValidationError :=
  validate_references_exist entities e
  ++ validate_decision_enables entities e
  ++ validate_document_implementedBy entities e
  ++ validate_implements entities e
  ++ validate_depends_on entities e
  ++ validate_parent_type entities e

/-- The `VaultValidator` object state: its collection and its accumulated
`errors` list. -/
structure VaultValidator where
  entities : EntityMap
  errors : List ValidationError
deriving Repr

/-- `VaultValidator.validate_all`: resets `self.errors` to `[]`, then
validates every entity in the collection's insertion order, returning the
updated object together with the returned list. -/
def validate_all (v : VaultValidator) : VaultValidator × List ValidationError :=
  let errs := (v.entities.map (fun p => p.2)).flatMap (validate_entity v.entities)
  (⟨v.entities, errs⟩, errs)

/-- The `VaultLoader` object state: the authoritative collection and the
duplicates map (`defaultdict(list)`), both insertion-ordered. -/
structure LoaderState where
  entities : EntityMap
  duplicates : List (String × List String)
deriving Repr

/-- Python `dict` lookup on the duplicates map. -/
def lookupDup (d : List (String × List String)) (k : String) : Option (List String) :=
  (d.find? (fun p => p.1 == k)).map (fun p => p.2)

/-- Store `v` under `k` in the duplicates map: replace in place when the key
exists, append at the end otherwise (dict insertion-order semantics; the
`defaultdict` creates the key on first access). -/
def storeDup (d : List (String × List String)) (k : String) (v : List String) :
    List (String × List String) :=
  if d.any (fun p => p.1 == k) then
    d.map (fun p => if p.1 == k then (k, v) else p)
  else d ++ [(k, v)]

/-- The value stored in `duplicates[entity.id]` by the duplicate branch of
`_load_folder`: the current list with the new file path appended, and the
winner's path inserted in front when this is the first duplicate (list
length 1 after the append). -/
def dupListAfter (winner : Option Entity) (cur : List String) (path : String) :
    List String :=
  if (cur ++ [path]).length == 1 then
    match winner with
    | Option.some w => w.file_path :: (cur ++ [path])
    | Option.none => cur ++ [path]
  else cur ++ [path]

/-- One iteration of `VaultLoader._load_folder`'s loop body: `ent` is the
result of `load_entity_from_file` on the next file (in traversal order);
`none` (an unparsable or id-less file) is skipped.  On a duplicate id the
new file path is appended to `duplicates[id]`, and on the first duplicate
the winner's path is inserted in front; otherwise the entity joins the
collection. -/
def loadStep (st : LoaderState) (ent : Option Entity) : LoaderState :=
  match ent with
  | Option.none => st
  | Option.some e =>
      if containsId st.entities e.id then
        { st with duplicates :=
            (storeDup st.duplicates e.id
              (dupListAfter (lookupEntity st.entities e.id)
                ((lookupDup st.duplicates e.id).getD []) e.file_path)) }
      else
        { st with entities := st.entities ++ [(e.id, e)] }

/-- `VaultLoader._load_folder` over the folder's files in traversal order
(`VaultLoader.load` is this folded over the five folders' concatenated file
lists, starting from the empty state). -/
def load_folder (files : List (Option Entity)) (st : LoaderState) : LoaderState :=
  files.foldl loadStep st

/-- The entities actually discovered in a file list (files whose
`load_entity_from_file` returned an entity), in traversal order. -/
def discovered (files : List (Option Entity)) : List Entity :=
  files.filterMap id

/-- A canvas node, as read with `node.get('type')` / `node.get('file', '')`. -/
structure CanvasNode where
  type : Option String
  file : Option String
deriving Repr, DecidableEq

/-- A canvas edge (`edge.get('fromNode', '')` / `edge.get('toNode', '')`);
carried but never checked. -/
structure CanvasEdge where
  fromNode : Option String
  toNode : Option String
deriving Repr, DecidableEq

/-- A parsed canvas document: the `nodes` and `edges` arrays (each
defaulting to `[]` when the key is absent, per `canvas_data.get`). -/
structure CanvasData where
  nodes : List CanvasNode
  edges : List CanvasEdge
deriving Repr, DecidableEq

/-- The index of the last '.' in a list of characters, if any. -/
def lastDotIdx (cs : List Char) : Option Nat :=
  ((List.range cs.length).filter (fun i => cs.getD i ' ' == '.')).getLast?

/-- Python `pathlib.Path(p).stem`: the final path component with its last
suffix removed; a dot at the very start or very end of the name is not a
suffix separator. -/
def pathStem (p : String) : String :=
  let name := (splitOnCharAux '/' p.data []).getLastD []
  match lastDotIdx name with
  | Option.some i =>
      if 0 < i ∧ i + 1 < name.length then String.mk (name.take i)
      else String.mk name
  | Option.none => String.mk name

/-- `CanvasValidator._extract_entity_id_from_path`: the file's stem when it
starts with a known entity prefix, else `None`. -/
def extract_entity_id_from_path (file_path : String) : Option String :=
  let filename := pathStem file_path
  if ENTITY_PREFIXES.any (fun p => strStartsWith filename p.1) then
    Option.some filename
  else Option.none

/-- The per-node body of `CanvasValidator.validate`'s node loop: a warning
when a file node's derived entity id is not in the collection. -/
def canvas_node_check (canvas_path : String) (entities : EntityMap)
    (node : CanvasNode) : List ValidationError :=
  if node.type == Option.some "file" then
    let fp := (node.file).getD ""
    match extract_entity_id_from_path fp with
    | Option.some entityId =>
        if containsId entities entityId then []
        else [⟨entityId, "canvas_node",
               "Canvas references non-existent entity '" ++ entityId ++ "'",
               "warning", canvas_path⟩]
    | Option.none => []
  else []

/-- `CanvasValidator.validate`: `loaded` is the outcome of reading and
JSON-parsing the canvas file (`Except.error` carries the exception text).
A load failure yields the single sentinel finding and nothing else; nodes
are checked with `canvas_node_check`; the edge loop emits nothing. -/
def canvas_validate (canvas_path : String) (entities : EntityMap)
    (loaded : Except String CanvasData) : List ValidationError :=
  match loaded with
  | Except.error msg =>
      [⟨"canvas", "file", "Failed to load canvas: " ++ msg, "error", canvas_path⟩]
  | Except.ok canvas_data =>
      canvas_data.nodes.flatMap (canvas_node_check canvas_path entities)

/-- The exit-code computation at the end of `main` (lines 540-560): counts
`error` and `warning` severities over the relationship-validation findings
`errors` and returns 1 when any error was counted, else 0.  The canvas
findings are a parameter to make their (non-)use explicit: `main` prints
them but they never enter `total_errors`. -/
def main_exit_code (errors canvas_errors : List ValidationError) : Nat :=
  let total_errors := (errors.filter (fun e => e.severity == "error")).length
  let _total_warnings := (errors.filter (fun e => e.severity == "warning")).length
  let _canvas := canvas_errors
  if total_errors > 0 then 1 else 0

/-- Claim C6: the relationship-field normalization maps the comma-separated
string "T-001, T-002" and the native sequence [T-001, T-002] to the same
ordered two-element sequence ["T-001", "T-002"]; a missing/null value
normalizes to the empty sequence; and falsy entries inside a native
sequence are dropped. -/
theorem claim_C6_normalization_round_trip :
    parse_list_field (PyVal.str "T-001, T-002") = ["T-001", "T-002"] ∧
    parse_list_field (PyVal.list [PyVal.str "T-001", PyVal.str "T-002"]) =
      ["T-001", "T-002"] ∧
    parse_list_field (PyVal.str "T-001, T-002") =
      parse_list_field (PyVal.list [PyVal.str "T-001", PyVal.str "T-002"]) ∧
    parse_list_field PyVal.none = [] ∧
    ∀ xs : List PyVal,
      parse_list_field (PyVal.list xs) = (xs.filter pyTruthy).map pyStr := by
  refine ⟨by decide, by decide, by decide, rfl, fun xs => rfl⟩

/-- Claim C7 counterexample: the numeric scalar 5 supplied for a
relationship field is NOT wrapped as the one-element sequence ["5"]; the
final fall-through of `parse_list_field` returns the empty list instead. -/
theorem claim_C7_counterexample :
    ¬ (parse_list_field (PyVal.int 5) = [pyStr (PyVal.int 5)]) := by
  decide

/-- Claim C7 (amended): a non-empty comma-free string scalar is wrapped as
the one-element sequence containing it; the empty string, numeric scalars
and null all normalize to the empty sequence (they are never wrapped). -/
theorem claim_C7_scalar_wrapping :
    (∀ s : String, strContainsChar s ',' = false → s ≠ "" →
      parse_list_field (PyVal.str s) = [s]) ∧
    parse_list_field (PyVal.str "") = [] ∧
    (∀ n : Int, parse_list_field (PyVal.int n) = []) ∧
    parse_list_field PyVal.none = [] := by
  refine ⟨fun s hc hs => ?_, rfl, fun n => rfl, rfl⟩
  simp [parse_list_field, hc, hs]

/-- Claim C7 witness: the bare id string "T-001" is wrapped as ["T-001"]. -/
theorem claim_C7_scalar_wrapping_witness :
    parse_list_field (PyVal.str "T-001") = ["T-001"] :=
  claim_C7_scalar_wrapping.1 "T-001" (by decide) (by decide)

/-- Claim C8: validation is deterministic and idempotent: two validators
over the same collection return the same ordered finding list whatever
their prior `errors` state (`validate_all` resets it), so running
`validate_all` twice in a row returns identical ordered lists. -/
theorem claim_C8_validate_idempotent (v w : VaultValidator)
    (h : v.entities = w.entities) :
    (validate_all v).2 = (validate_all w).2 ∧
    (validate_all (validate_all v).1).2 = (validate_all v).2 := by
  constructor
  · simp only [validate_all, h]
  · rfl

/-- Claim C8 witness: a validator with stale accumulated errors and a fresh
one over the same one-entity collection return the same finding list. -/
theorem claim_C8_validate_idempotent_witness :
    (validate_all ⟨[("M-001", ⟨"M-001", "milestone", "", "", "m.md", Option.none,
        [], [], [], [], [], Option.none, []⟩)],
      [⟨"stale", "f", "m", "error", "p"⟩]⟩).2 =
    (validate_all ⟨[("M-001", ⟨"M-001", "milestone", "", "", "m.md", Option.none,
        [], [], [], [], [], Option.none, []⟩)], []⟩).2 :=
  (claim_C8_validate_idempotent _ _ rfl).1

/-- Claim C10: `validate_all` leaves the input collection untouched: the
returned validator carries the identical entity map, so every key maps to
the identical record (all fields included) before and after validation. -/
theorem claim_C10_validate_frame (v : VaultValidator) :
    (validate_all v).1.entities = v.entities ∧
    ∀ k, lookupEntity (validate_all v).1.entities k = lookupEntity v.entities k :=
  ⟨rfl, fun _ => rfl⟩

/-- Claim C4 counterexample: with no relationship-validation error but a
canvas load-failure `error` finding, the run exits 0 although an
`error`-severity finding exists across the whole run: the exit code ignores
canvas findings. -/
theorem claim_C4_counterexample :
    ¬ ((main_exit_code []
          [⟨"canvas", "file", "Failed to load canvas: boom", "error", "c.canvas"⟩] ≠ 0) ↔
        ∃ e ∈ ([] : List ValidationError) ++
            [⟨"canvas", "file", "Failed to load canvas: boom", "error", "c.canvas"⟩],
          e.severity = "error") := by
  decide

/-- `main_exit_code` with its `let` bindings inlined. -/
theorem main_exit_code_eq (errors canvas_errors : List ValidationError) :
    main_exit_code errors canvas_errors =
      if 0 < (errors.filter (fun e => e.severity == "error")).length then 1 else 0 :=
  rfl

/-- Claim C4 (amended): the run exits non-zero if and only if at least one
`error`-severity Finding exists among the relationship-validation findings;
canvas findings (of any severity) never influence the exit status, and a
run with only warnings exits 0. -/
theorem claim_C4_exit_code (errors canvas_errors : List ValidationError) :
    (main_exit_code errors canvas_errors ≠ 0 ↔
      ∃ e ∈ errors, e.severity = "error") ∧
    (∀ other : List ValidationError,
      main_exit_code errors canvas_errors = main_exit_code errors other) ∧
    ((∀ e ∈ errors, e.severity ≠ "error") →
      main_exit_code errors canvas_errors = 0) := by
  have hnil : ∀ h : ∀ e ∈ errors, e.severity ≠ "error",
      errors.filter (fun e => e.severity == "error") = [] := fun h =>
    List.filter_eq_nil_iff.mpr (fun a ha => by simpa using h a ha)
  refine ⟨⟨fun hne => ?_, ?_⟩, fun other => rfl, fun h => ?_⟩
  · by_contra hex
    push_neg at hex
    rw [main_exit_code_eq, hnil hex] at hne
    exact hne rfl
  · rintro ⟨e, he, hsev⟩
    have hmem : e ∈ errors.filter (fun ee => ee.severity == "error") :=
      List.mem_filter.mpr ⟨he, by simp [hsev]⟩
    have hpos : 0 < (errors.filter (fun ee => ee.severity == "error")).length :=
      List.length_pos_of_mem hmem
    rw [main_exit_code_eq, if_pos hpos]
    exact one_ne_zero
  · rw [main_exit_code_eq, hnil h]
    rfl

/-- Claim C4 witness: one relationship `error` finding makes the run exit
non-zero. -/
theorem claim_C4_exit_code_witness :
    main_exit_code [⟨"M-001", "depends_on", "m", "error", "p"⟩] [] ≠ 0 :=
  (claim_C4_exit_code [⟨"M-001", "depends_on", "m", "error", "p"⟩] []).1.mpr
    ⟨⟨"M-001", "depends_on", "m", "error", "p"⟩, by decide, by decide⟩

/-- Claim C9: if the canvas document cannot be loaded/parsed, the checker
returns exactly one `error` finding with the sentinel entity id "canvas"
and performs no node or edge checks; otherwise each file node whose stem
starts with a known type-tag prefix and whose derived id is absent from the
collection yields a `warning`, nodes with an underivable id are ignored,
and the edges contribute no findings at all. -/
theorem claim_C9_canvas_checker (canvas_path : String) (entities : EntityMap) :
    (∀ msg, canvas_validate canvas_path entities (Except.error msg) =
      [⟨"canvas", "file", "Failed to load canvas: " ++ msg, "error", canvas_path⟩]) ∧
    (∀ data : CanvasData, ∀ node ∈ data.nodes, node.type = Option.some "file" →
      ∀ eid, extract_entity_id_from_path ((node.file).getD "") = Option.some eid →
        containsId entities eid = false →
        (⟨eid, "canvas_node",
          "Canvas references non-existent entity '" ++ eid ++ "'",
          "warning", canvas_path⟩ : ValidationError) ∈
          canvas_validate canvas_path entities (Except.ok data)) ∧
    (∀ node : CanvasNode,
      extract_entity_id_from_path ((node.file).getD "") = Option.none →
      canvas_node_check canvas_path entities node = []) ∧
    (∀ nodes edges edges2,
      canvas_validate canvas_path entities (Except.ok ⟨nodes, edges⟩) =
      canvas_validate canvas_path entities (Except.ok ⟨nodes, edges2⟩)) := by
  refine ⟨fun msg => rfl, ?_, ?_, fun nodes edges edges2 => rfl⟩
  · intro data node hmem htype eid hex hcon
    show _ ∈ data.nodes.flatMap (canvas_node_check canvas_path entities)
    refine List.mem_flatMap.mpr ⟨node, hmem, ?_⟩
    simp [canvas_node_check, htype, hex, hcon]
  · intro node hex
    unfold canvas_node_check
    by_cases h : node.type == Option.some "file"
    · simp [h, hex]
    · simp [h]

/-- Claim C9 witness: an unloadable canvas yields the single sentinel
finding, and a file node for the missing "M-001" yields its warning. -/
theorem claim_C9_canvas_checker_witness :
    canvas_validate "c.canvas" [] (Except.error "boom") =
      [⟨"canvas", "file", "Failed to load canvas: boom", "error", "c.canvas"⟩] ∧
    (⟨"M-001", "canvas_node", "Canvas references non-existent entity 'M-001'",
      "warning", "c.canvas"⟩ : ValidationError) ∈
      canvas_validate "c.canvas" []
        (Except.ok ⟨[⟨Option.some "file", Option.some "milestones/M-001.md"⟩], []⟩) :=
  ⟨(claim_C9_canvas_checker "c.canvas" []).1 "boom",
   (claim_C9_canvas_checker "c.canvas" []).2.1
     ⟨[⟨Option.some "file", Option.some "milestones/M-001.md"⟩], []⟩
     ⟨Option.some "file", Option.some "milestones/M-001.md"⟩
     (by decide) rfl "M-001" (by decide) rfl⟩

/-- Claim C1: every id referenced by a relationship field of a record that
is not a key of the collection yields a Finding attributed to the
referencing record, on the referencing field, with severity `error` except
for `blocked_by`, which yields a `warning` (`parent` and `supersedes`
references are the truthy optional values). -/
theorem claim_C1_existence_findings (entities : EntityMap) (e : Entity) (x : String) :
    (x ∈ e.depends_on → containsId entities x = false →
      (⟨e.id, "depends_on", refNotFoundMsg "Referenced" x, "error", e.file_path⟩ :
        ValidationError) ∈ validate_entity entities e) ∧
    (x ∈ e.blocked_by → containsId entities x = false →
      (⟨e.id, "blocked_by", refNotFoundMsg "Referenced" x, "warning", e.file_path⟩ :
        ValidationError) ∈ validate_entity entities e) ∧
    (x ∈ e.implements → containsId entities x = false →
      (⟨e.id, "implements", "Referenced document '" ++ x ++ "' not found", "error",
        e.file_path⟩ : ValidationError) ∈ validate_entity entities e) ∧
    (x ∈ e.enables → containsId entities x = false →
      (⟨e.id, "enables", refNotFoundMsg "Referenced" x, "error", e.file_path⟩ :
        ValidationError) ∈ validate_entity entities e) ∧
    (x ∈ e.implementedBy → containsId entities x = false →
      (⟨e.id, "implemented_by", refNotFoundMsg "Referenced" x, "error", e.file_path⟩ :
        ValidationError) ∈ validate_entity entities e) ∧
    (e.parent = Option.some x → x ≠ "" → containsId entities x = false →
      (⟨e.id, "parent", refNotFoundMsg "Parent" x, "error", e.file_path⟩ :
        ValidationError) ∈ validate_entity entities e) ∧
    (e.supersedes = Option.some x → x ≠ "" → containsId entities x = false →
      (⟨e.id, "supersedes", refNotFoundMsg "Superseded" x, "error", e.file_path⟩ :
        ValidationError) ∈ validate_entity entities e) := by
  refine ⟨fun hx hc => ?_, fun hx hc => ?_, fun hx hc => ?_, fun hx hc => ?_,
    fun hx hc => ?_, fun hp hne hc => ?_, fun hp hne hc => ?_⟩
  · simp only [validate_entity, validate_references_exist, List.mem_append,
      List.mem_flatMap]
    iterate 11 left
    exact ⟨x, hx, by simp [hc]⟩
  · simp only [validate_entity, validate_references_exist, List.mem_append,
      List.mem_flatMap]
    iterate 10 left
    right
    exact ⟨x, hx, by simp [hc]⟩
  · simp only [validate_entity, validate_references_exist, List.mem_append,
      List.mem_flatMap]
    iterate 9 left
    right
    exact ⟨x, hx, by simp [hc]⟩
  · simp only [validate_entity, validate_references_exist, List.mem_append,
      List.mem_flatMap]
    iterate 8 left
    right
    exact ⟨x, hx, by simp [hc]⟩
  · simp only [validate_entity, validate_references_exist, List.mem_append,
      List.mem_flatMap]
    iterate 7 left
    right
    exact ⟨x, hx, by simp [hc]⟩
  · simp only [validate_entity, validate_references_exist, List.mem_append]
    iterate 6 left
    right
    rw [hp]
    simp [hne, hc]
  · simp only [validate_entity, validate_references_exist, List.mem_append]
    iterate 5 left
    right
    rw [hp]
    simp [hne, hc]

/-- Claim C1 witness: a task depending on the absent "X-001" and blocked by
the absent "X-002" yields the `error` and the `warning` finding. -/
theorem claim_C1_existence_findings_witness :
    (⟨"T-010", "depends_on", refNotFoundMsg "Referenced" "X-001", "error", "t.md"⟩ :
      ValidationError) ∈ validate_entity []
        ⟨"T-010", "task", "", "", "t.md", Option.none, ["X-001"], ["X-002"],
          [], [], [], Option.none, []⟩ ∧
    (⟨"T-010", "blocked_by", refNotFoundMsg "Referenced" "X-002", "warning", "t.md"⟩ :
      ValidationError) ∈ validate_entity []
        ⟨"T-010", "task", "", "", "t.md", Option.none, ["X-001"], ["X-002"],
          [], [], [], Option.none, []⟩ :=
  ⟨(claim_C1_existence_findings [] _ "X-001").1 (by decide) rfl,
   (claim_C1_existence_findings [] _ "X-002").2.1 (by decide) rfl⟩

/-- The `depends_on` rule table exactly as the spec's claim states it, per
source type (a second, claim-side copy of the table, to be compared with
the source's `DEPENDS_ON_VALID_TYPES`). -/
def claimDependsOnAllowed : String → List String
  | "milestone" => ["milestone", "decision"]
  | "story" => ["story", "decision", "document"]
  | "task" => ["task", "decision"]
  | "decision" => ["decision"]
  | "document" => ["document", "decision"]
  | _ => []

/-- On the five classified entity types the source's `depends_on` table and
the claim's table coincide. -/
theorem depends_on_tables_agree (t : String)
    (ht : t ∈ (["milestone", "story", "task", "decision", "document"] : List String)) :
    DEPENDS_ON_VALID_TYPES t = claimDependsOnAllowed t := by
  simp only [List.mem_cons, List.mem_singleton, List.not_mem_nil, or_false] at ht
  rcases ht with rfl | rfl | rfl | rfl | rfl <;> rfl

/-- Claim C2: a type-compatibility `error` finding is emitted exactly when
the rule table is violated, each rule restricted to its stated source type
and skipped when the target does not resolve: a decision's `enables` target
must be a document, story or task; a document's `implemented_by` target a
story or task; the `implements` target of a story, task or milestone a
document; and a `depends_on` target's type must lie in the per-source-type
set of the rule table.  All such findings are part of the per-entity
validation output. -/
theorem claim_C2_type_compat (entities : EntityMap) (e : Entity)
    (htype : e.type ∈ (["milestone", "story", "task", "decision", "document"] : List String)) :
    ((∃ err ∈ validate_decision_enables entities e, err.entity_id = e.id ∧
        err.field = "enables" ∧ err.severity = "error") ↔
      (e.type = "decision" ∧ ∃ t ∈ e.enables, ∃ tgt,
        lookupEntity entities t = Option.some tgt ∧
        tgt.type ∉ (["document", "story", "task"] : List String))) ∧
    ((∃ err ∈ validate_document_implementedBy entities e, err.entity_id = e.id ∧
        err.field = "implemented_by" ∧ err.severity = "error") ↔
      (e.type = "document" ∧ ∃ t ∈ e.implementedBy, ∃ tgt,
        lookupEntity entities t = Option.some tgt ∧
        tgt.type ∉ (["story", "task"] : List String))) ∧
    ((∃ err ∈ validate_implements entities e, err.entity_id = e.id ∧
        err.field = "implements" ∧ err.severity = "error") ↔
      ((e.type = "story" ∨ e.type = "task" ∨ e.type = "milestone") ∧
        ∃ t ∈ e.implements, ∃ tgt,
        lookupEntity entities t = Option.some tgt ∧ tgt.type ≠ "document")) ∧
    ((∃ err ∈ validate_depends_on entities e, err.entity_id = e.id ∧
        err.field = "depends_on" ∧ err.severity = "error") ↔
      (∃ t ∈ e.depends_on, ∃ tgt, lookupEntity entities t = Option.some tgt ∧
        tgt.type ∉ claimDependsOnAllowed e.type)) ∧
    (∀ err : ValidationError,
      (err ∈ validate_decision_enables entities e ∨
       err ∈ validate_document_implementedBy entities e ∨
       err ∈ validate_implements entities e ∨
       err ∈ validate_depends_on entities e) →
      err ∈ validate_entity entities e) := by
  refine ⟨?_, ?_, ?_, ?_, ?_⟩
  · constructor
    · rintro ⟨err, herr, hid, hf, hsev⟩
      unfold validate_decision_enables at herr
      by_cases hd : e.type == "decision"
      · rw [if_pos hd] at herr
        obtain ⟨t, ht, hin⟩ := List.mem_flatMap.mp herr
        refine ⟨by simpa using hd, t, ht, ?_⟩
        cases hlk : lookupEntity entities t with
        | none => rw [hlk] at hin; simp at hin
        | some tgt =>
            rw [hlk] at hin
            simp only [] at hin
            by_cases hall : tgt.type ∈ DECISION_ENABLES_VALID_TYPES
            · rw [if_pos hall] at hin; simp at hin
            · exact ⟨tgt, rfl, by simpa [DECISION_ENABLES_VALID_TYPES] using hall⟩
      · rw [if_neg hd] at herr; simp at herr
    · rintro ⟨hd, t, ht, tgt, hlk, hall⟩
      refine ⟨⟨e.id, "enables", enablesMsg tgt.type t, "error", e.file_path⟩, ?_,
        rfl, rfl, rfl⟩
      unfold validate_decision_enables
      rw [if_pos (by simp [hd])]
      refine List.mem_flatMap.mpr ⟨t, ht, ?_⟩
      rw [hlk]
      simp only []
      rw [if_neg (by simpa [DECISION_ENABLES_VALID_TYPES] using hall)]
      exact List.mem_singleton.mpr rfl
  · constructor
    · rintro ⟨err, herr, hid, hf, hsev⟩
      unfold validate_document_implementedBy at herr
      by_cases hd : e.type == "document"
      · rw [if_pos hd] at herr
        obtain ⟨t, ht, hin⟩ := List.mem_flatMap.mp herr
        refine ⟨by simpa using hd, t, ht, ?_⟩
        cases hlk : lookupEntity entities t with
        | none => rw [hlk] at hin; simp at hin
        | some tgt =>
            rw [hlk] at hin
            simp only [] at hin
            by_cases hall : tgt.type ∈ DOCUMENT_IMPLEMENTED_BY_VALID_TYPES
            · rw [if_pos hall] at hin; simp at hin
            · exact ⟨tgt, rfl, by simpa [DOCUMENT_IMPLEMENTED_BY_VALID_TYPES] using hall⟩
      · rw [if_neg hd] at herr; simp at herr
    · rintro ⟨hd, t, ht, tgt, hlk, hall⟩
      refine ⟨⟨e.id, "implemented_by", implementedByMsg tgt.type t, "error", e.file_path⟩,
        ?_, rfl, rfl, rfl⟩
      unfold validate_document_implementedBy
      rw [if_pos (by simp [hd])]
      refine List.mem_flatMap.mpr ⟨t, ht, ?_⟩
      rw [hlk]
      simp only []
      rw [if_neg (by simpa [DOCUMENT_IMPLEMENTED_BY_VALID_TYPES] using hall)]
      exact List.mem_singleton.mpr rfl
  · constructor
    · rintro ⟨err, herr, hid, hf, hsev⟩
      unfold validate_implements at herr
      by_cases hd : (e.type == "story" || e.type == "task" || e.type == "milestone")
      · rw [if_pos hd] at herr
        obtain ⟨t, ht, hin⟩ := List.mem_flatMap.mp herr
        refine ⟨by simpa [or_assoc] using hd, t, ht, ?_⟩
        cases hlk : lookupEntity entities t with
        | none => rw [hlk] at hin; simp at hin
        | some tgt =>
            rw [hlk] at hin
            simp only [] at hin
            by_cases hall : tgt.type ∈ IMPLEMENTS_VALID_TYPES
            · rw [if_pos hall] at hin; simp at hin
            · exact ⟨tgt, rfl, by simpa [IMPLEMENTS_VALID_TYPES] using hall⟩
      · rw [if_neg hd] at herr; simp at herr
    · rintro ⟨hd, t, ht, tgt, hlk, hall⟩
      refine ⟨⟨e.id, "implements", implementsMsg e.type tgt.type t, "error", e.file_path⟩,
        ?_, rfl, rfl, rfl⟩
      unfold validate_implements
      rw [if_pos (by rcases hd with h | h | h <;> simp [h])]
      refine List.mem_flatMap.mpr ⟨t, ht, ?_⟩
      rw [hlk]
      simp only []
      rw [if_neg (by simpa [IMPLEMENTS_VALID_TYPES] using hall)]
      exact List.mem_singleton.mpr rfl
  · rw [← depends_on_tables_agree e.type htype]
    constructor
    · rintro ⟨err, herr, hid, hf, hsev⟩
      unfold validate_depends_on at herr
      obtain ⟨t, ht, hin⟩ := List.mem_flatMap.mp herr
      refine ⟨t, ht, ?_⟩
      cases hlk : lookupEntity entities t with
      | none => rw [hlk] at hin; simp at hin
      | some tgt =>
          rw [hlk] at hin
          simp only [] at hin
          by_cases hall : tgt.type ∈ DEPENDS_ON_VALID_TYPES e.type
          · rw [if_pos hall] at hin; simp at hin
          · exact ⟨tgt, rfl, hall⟩
    · rintro ⟨t, ht, tgt, hlk, hall⟩
      refine ⟨⟨e.id, "depends_on", dependsOnMsg e.type tgt.type t, "error", e.file_path⟩,
        ?_, rfl, rfl, rfl⟩
      unfold validate_depends_on
      refine List.mem_flatMap.mpr ⟨t, ht, ?_⟩
      rw [hlk]
      simp only []
      rw [if_neg hall]
      exact List.mem_singleton.mpr rfl
  · intro err herr
    simp only [validate_entity, List.mem_append]
    tauto

/-- Claim C2 witness: task "T-010" with `depends_on: [S-005]`, where
"S-005" is a story in the collection, yields an `error` finding on
`depends_on` (a task may depend only on task/decision). -/
theorem claim_C2_type_compat_witness :
    ∃ err ∈ validate_depends_on
      [("S-005", ⟨"S-005", "story", "", "", "s.md", Option.none, [], [], [], [], [],
          Option.none, []⟩),
       ("T-010", ⟨"T-010", "task", "", "", "t.md", Option.none, ["S-005"], [], [], [], [],
          Option.none, []⟩)]
      ⟨"T-010", "task", "", "", "t.md", Option.none, ["S-005"], [], [], [], [],
        Option.none, []⟩,
      err.entity_id = "T-010" ∧ err.field = "depends_on" ∧ err.severity = "error" :=
  ((claim_C2_type_compat _ _ (by decide)).2.2.2.1).mpr
    ⟨"S-005", by decide,
     ⟨"S-005", "story", "", "", "s.md", Option.none, [], [], [], [], [],
       Option.none, []⟩, rfl, by decide⟩

/-- Python `key in dict` agrees with `dict.get(key)` being non-`None`. -/
theorem containsId_eq_isSome (m : EntityMap) (k : String) :
    containsId m k = (lookupEntity m k).isSome := by
  induction m with
  | nil => rfl
  | cons p rest ih =>
      by_cases h : p.1 == k
      · simp [containsId, lookupEntity, List.any_cons, List.find?_cons_of_pos, h]
      · simp only [containsId, lookupEntity, List.any_cons] at *
        rw [List.find?_cons_of_neg _ (by simpa using h)]
        simpa [h] using ih

/-- A list of findings that all avoid a field filters to nothing on it. -/
theorem filter_field_eq_nil_of_all {l : List ValidationError} {fld : String}
    (h : ∀ err ∈ l, err.field ≠ fld) :
    l.filter (fun err => err.field == fld) = [] :=
  List.filter_eq_nil_iff.mpr (fun a ha => by simpa using h a ha)

/-- Findings of an existence-check component (guarded singleton `flatMap`)
filter to nothing on a field none of them carries. -/
theorem filter_field_flatMap_guard {α : Type} (ids : List α) (c : α → Bool)
    (mk : α → ValidationError) (fld : String)
    (hmk : ∀ i, (mk i).field ≠ fld) :
    (ids.flatMap fun i => if c i then [] else [mk i]).filter
      (fun err => err.field == fld) = [] := by
  rw [List.filter_eq_nil_iff]
  intro a ha
  obtain ⟨i, hi, hin⟩ := List.mem_flatMap.mp ha
  by_cases h : c i
  · simp [h] at hin
  · simp only [h, if_false, Bool.false_eq_true, List.mem_singleton] at hin
    subst hin
    simp [hmk i]

/-- Every finding of `_validate_decision_enables` is on field `enables`. -/
theorem field_of_validate_decision_enables (entities : EntityMap) (e : Entity) :
    ∀ err ∈ validate_decision_enables entities e, err.field = "enables" := by
  intro err herr
  unfold validate_decision_enables at herr
  by_cases hd : e.type == "decision"
  · rw [if_pos hd] at herr
    obtain ⟨t, ht, hin⟩ := List.mem_flatMap.mp herr
    cases hlk : lookupEntity entities t with
    | none => rw [hlk] at hin; simp at hin
    | some tgt =>
        rw [hlk] at hin
        simp only [] at hin
        by_cases hall : tgt.type ∈ DECISION_ENABLES_VALID_TYPES
        · rw [if_pos hall] at hin; simp at hin
        · rw [if_neg hall, List.mem_singleton] at hin
          subst hin
          rfl
  · rw [if_neg hd] at herr; simp at herr

/-- Every finding of `_validate_document_implemented_by` is on field
`implemented_by`. -/
theorem field_of_validate_document_implementedBy (entities : EntityMap) (e : Entity) :
    ∀ err ∈ validate_document_implementedBy entities e, err.field = "implemented_by" := by
  intro err herr
  unfold validate_document_implementedBy at herr
  by_cases hd : e.type == "document"
  · rw [if_pos hd] at herr
    obtain ⟨t, ht, hin⟩ := List.mem_flatMap.mp herr
    cases hlk : lookupEntity entities t with
    | none => rw [hlk] at hin; simp at hin
    | some tgt =>
        rw [hlk] at hin
        simp only [] at hin
        by_cases hall : tgt.type ∈ DOCUMENT_IMPLEMENTED_BY_VALID_TYPES
        · rw [if_pos hall] at hin; simp at hin
        · rw [if_neg hall, List.mem_singleton] at hin
          subst hin
          rfl
  · rw [if_neg hd] at herr; simp at herr

/-- Every finding of `_validate_implements` is on field `implements`. -/
theorem field_of_validate_implements (entities : EntityMap) (e : Entity) :
    ∀ err ∈ validate_implements entities e, err.field = "implements" := by
  intro err herr
  unfold validate_implements at herr
  by_cases hd : (e.type == "story" || e.type == "task" || e.type == "milestone")
  · rw [if_pos hd] at herr
    obtain ⟨t, ht, hin⟩ := List.mem_flatMap.mp herr
    cases hlk : lookupEntity entities t with
    | none => rw [hlk] at hin; simp at hin
    | some tgt =>
        rw [hlk] at hin
        simp only [] at hin
        by_cases hall : tgt.type ∈ IMPLEMENTS_VALID_TYPES
        · rw [if_pos hall] at hin; simp at hin
        · rw [if_neg hall, List.mem_singleton] at hin
          subst hin
          rfl
  · rw [if_neg hd] at herr; simp at herr

/-- Every finding of `_validate_depends_on` is on field `depends_on`. -/
theorem field_of_validate_depends_on (entities : EntityMap) (e : Entity) :
    ∀ err ∈ validate_depends_on entities e, err.field = "depends_on" := by
  intro err herr
  unfold validate_depends_on at herr
  obtain ⟨t, ht, hin⟩ := List.mem_flatMap.mp herr
  cases hlk : lookupEntity entities t with
  | none => rw [hlk] at hin; simp at hin
  | some tgt =>
      rw [hlk] at hin
      simp only [] at hin
      by_cases hall : tgt.type ∈ DEPENDS_ON_VALID_TYPES e.type
      · rw [if_pos hall] at hin; simp at hin
      · rw [if_neg hall, List.mem_singleton] at hin
        subst hin
        rfl

/-- With a truthy, non-resolving `parent`, the existence checks produce
exactly the one parent existence finding on field `parent`. -/
theorem parent_filter_vre (entities : EntityMap) (e : Entity) (p : String)
    (hp : e.parent = Option.some p) (hne : p ≠ "")
    (hcon : containsId entities p = false) :
    (validate_references_exist entities e).filter (fun err => err.field == "parent") =
      [⟨e.id, "parent", refNotFoundMsg "Parent" p, "error", e.file_path⟩] := by
  unfold validate_references_exist
  rw [List.filter_append, List.filter_append, List.filter_append, List.filter_append,
    List.filter_append, List.filter_append]
  rw [filter_field_flatMap_guard _ _ _ _ (fun i => by simp),
      filter_field_flatMap_guard _ _ _ _ (fun i => by simp),
      filter_field_flatMap_guard _ _ _ _ (fun i => by simp),
      filter_field_flatMap_guard _ _ _ _ (fun i => by simp),
      filter_field_flatMap_guard _ _ _ _ (fun i => by simp)]
  have hpe : (p == "") = false := beq_eq_false_iff_ne.mpr hne
  simp [hp, hpe, hcon,
    apply_ite (List.filter (fun err : ValidationError => err.field == "parent"))]
  intro a ha
  cases hs : e.supersedes with
  | none => simp [hs] at ha
  | some s =>
      simp only [hs] at ha
      by_cases h2 : ¬s = "" ∧ containsId entities s = false
      · rw [if_pos h2, List.mem_singleton] at ha
        subst ha
        simp
      · rw [if_neg h2] at ha
        simp at ha

/-- Claim C3: a story's resolved parent must be a milestone and a task's a
story (violations give one `error` finding on `parent`); milestone,
decision and document records get no parent-type finding; and when the
parent does not resolve, the only finding on field `parent` is the single
existence `error` (the type check is skipped). -/
theorem claim_C3_parent_type_check (entities : EntityMap) (e : Entity) (p : String) :
    (e.type = "story" → e.parent = Option.some p → p ≠ "" →
      ∀ par, lookupEntity entities p = Option.some par → par.type ≠ "milestone" →
      validate_parent_type entities e =
        [⟨e.id, "parent", parentTypeMsg "milestone" par.type, "error", e.file_path⟩]) ∧
    (e.type = "task" → e.parent = Option.some p → p ≠ "" →
      ∀ par, lookupEntity entities p = Option.some par → par.type ≠ "story" →
      validate_parent_type entities e =
        [⟨e.id, "parent", parentTypeMsg "story" par.type, "error", e.file_path⟩]) ∧
    ((e.type = "milestone" ∨ e.type = "decision" ∨ e.type = "document") →
      validate_parent_type entities e = []) ∧
    (e.parent = Option.some p → p ≠ "" → lookupEntity entities p = Option.none →
      (validate_entity entities e).filter (fun err => err.field == "parent") =
        [⟨e.id, "parent", refNotFoundMsg "Parent" p, "error", e.file_path⟩]) := by
  refine ⟨?_, ?_, ?_, ?_⟩
  · intro hst hp hne par hlk hnm
    have hpe : (p == "") = false := beq_eq_false_iff_ne.mpr hne
    have hexp : expected_parent_types e.type = Option.some "milestone" := by
      rw [hst]; decide
    have hnm2 : (par.type == "milestone") = false := beq_eq_false_iff_ne.mpr hnm
    simp [validate_parent_type, hp, hpe, hlk, hexp, hnm2]
  · intro hst hp hne par hlk hnm
    have hpe : (p == "") = false := beq_eq_false_iff_ne.mpr hne
    have hexp : expected_parent_types e.type = Option.some "story" := by
      rw [hst]; decide
    have hnm2 : (par.type == "story") = false := beq_eq_false_iff_ne.mpr hnm
    simp [validate_parent_type, hp, hpe, hlk, hexp, hnm2]
  · intro h3
    have hexp : expected_parent_types e.type = Option.none := by
      rcases h3 with h | h | h <;> rw [h] <;> decide
    unfold validate_parent_type
    cases hp2 : e.parent with
    | none => rfl
    | some q =>
        by_cases hqe : (q == "") = true
        · simp [hqe]
        · cases hlk2 : lookupEntity entities q with
          | none => simp [hqe, hlk2]
          | some par => simp [hqe, hlk2, hexp]
  · intro hp hne hlk
    have hpe : (p == "") = false := beq_eq_false_iff_ne.mpr hne
    have hcon : containsId entities p = false := by
      rw [containsId_eq_isSome, hlk]
      rfl
    have hvpt : validate_parent_type entities e = [] := by
      simp [validate_parent_type, hp, hpe, hlk]
    have h1 : ∀ err ∈ validate_decision_enables entities e, err.field ≠ "parent" :=
      fun err herr => by
        rw [field_of_validate_decision_enables entities e err herr]; simp
    have h2 : ∀ err ∈ validate_document_implementedBy entities e, err.field ≠ "parent" :=
      fun err herr => by
        rw [field_of_validate_document_implementedBy entities e err herr]; simp
    have h3 : ∀ err ∈ validate_implements entities e, err.field ≠ "parent" :=
      fun err herr => by
        rw [field_of_validate_implements entities e err herr]; simp
    have h4 : ∀ err ∈ validate_depends_on entities e, err.field ≠ "parent" :=
      fun err herr => by
        rw [field_of_validate_depends_on entities e err herr]; simp
    unfold validate_entity
    rw [List.filter_append, List.filter_append, List.filter_append, List.filter_append,
      List.filter_append]
    rw [parent_filter_vre entities e p hp hne hcon,
      filter_field_eq_nil_of_all h1, filter_field_eq_nil_of_all h2,
      filter_field_eq_nil_of_all h3, filter_field_eq_nil_of_all h4, hvpt]
    simp

/-- Claim C3 witness: story "S-020" with the unresolved parent "M-999"
yields exactly the one existence `error` on field `parent`, and a story
with a resolved non-milestone parent yields the parent-type `error`. -/
theorem claim_C3_parent_type_check_witness :
    (validate_entity []
      ⟨"S-020", "story", "", "", "s.md", Option.some "M-999", [], [], [], [], [],
        Option.none, []⟩).filter (fun err => err.field == "parent") =
      [⟨"S-020", "parent", refNotFoundMsg "Parent" "M-999", "error", "s.md"⟩] ∧
    validate_parent_type
      [("T-001", ⟨"T-001", "task", "", "", "t.md", Option.none, [], [], [], [], [],
          Option.none, []⟩)]
      ⟨"S-020", "story", "", "", "s.md", Option.some "T-001", [], [], [], [], [],
        Option.none, []⟩ =
      [⟨"S-020", "parent", parentTypeMsg "milestone" "task", "error", "s.md"⟩] :=
  ⟨(claim_C3_parent_type_check [] _ "M-999").2.2.2 rfl (by decide) rfl,
   (claim_C3_parent_type_check _ _ "T-001").1 rfl rfl (by decide)
     ⟨"T-001", "task", "", "", "t.md", Option.none, [], [], [], [], [],
       Option.none, []⟩ rfl (by decide)⟩

/-- The occurrences, in discovery order, of id `i` among the discovered
entities. -/
def occs (ds : List Entity) (i : String) : List Entity :=
  ds.filter (fun e => e.id == i)

/-- The duplicates-map entry for id `i` after discovering `ds`: nothing
below two occurrences, else the winner's path followed by every later
occurrence's path. -/
def dupSpec (ds : List Entity) (i : String) : Option (List String) :=
  match occs ds i with
  | [] => Option.none
  | [_] => Option.none
  | w :: rest => Option.some (w.file_path :: rest.map (fun e => e.file_path))

/-- The loader invariant tying a `LoaderState` to the list of entities
discovered so far. -/
def LoaderInv (ds : List Entity) (st : LoaderState) : Prop :=
  (∀ i, lookupEntity st.entities i = (occs ds i).head?) ∧
  (∀ i, lookupDup st.duplicates i = dupSpec ds i) ∧
  (st.entities.map (fun q => q.1)).Nodup

/-- Appending one discovery extends each id's occurrence list by at most
that discovery. -/
theorem occs_append (ds : List Entity) (e : Entity) (i : String) :
    occs (ds ++ [e]) i = occs ds i ++ if e.id == i then [e] else [] := by
  unfold occs
  rw [List.filter_append]
  by_cases h : (e.id == i) = true <;> simp [h]

/-- Lookup through an appended single binding. -/
theorem lookupEntity_append (m : EntityMap) (k : String) (e : Entity) (j : String) :
    lookupEntity (m ++ [(k, e)]) j =
      (lookupEntity m j).or (if k == j then Option.some e else Option.none) := by
  unfold lookupEntity
  rw [List.find?_append]
  cases List.find? (fun p => p.1 == j) m with
  | some q => rfl
  | none =>
      by_cases hk : (k == j) = true
      · simp [List.find?, hk]
      · simp [List.find?, hk]

/-- `lookupDup` on a cons cell. -/
theorem lookupDup_cons (x : String × List String) (l : List (String × List String))
    (j : String) :
    lookupDup (x :: l) j = if x.1 == j then Option.some x.2 else lookupDup l j := by
  unfold lookupDup
  rw [@List.find?_cons _ x l (fun p => p.1 == j)]
  by_cases h : (x.1 == j) = true
  · simp [h]
  · simp [h]

/-- Replacing key `k` in the duplicates map leaves other keys' lookups
unchanged. -/
theorem lookupDup_mapReplace_ne (d : List (String × List String)) (k : String)
    (v : List String) (j : String) (hj : (k == j) = false) :
    lookupDup (d.map (fun p => if p.1 == k then (k, v) else p)) j = lookupDup d j := by
  induction d with
  | nil => rfl
  | cons q rest ih =>
      rw [List.map_cons, lookupDup_cons, lookupDup_cons]
      by_cases hq : (q.1 == k) = true
      · have hq1 : q.1 = k := beq_iff_eq.mp hq
        rw [if_pos hq]
        show (if (k == j) = true then Option.some v
            else lookupDup (rest.map fun p => if p.1 == k then (k, v) else p) j) =
          if (q.1 == j) = true then Option.some q.2 else lookupDup rest j
        rw [hq1, hj]
        rw [if_neg (show ¬(false = true) by simp), if_neg (show ¬(false = true) by simp)]
        exact ih
      · rw [if_neg hq]
        by_cases hqj : (q.1 == j) = true
        · rw [if_pos hqj, if_pos hqj]
        · rw [if_neg hqj, if_neg hqj, ih]

/-- Replacing key `k` (present in the map) makes its lookup the new
value. -/
theorem lookupDup_mapReplace_eq (d : List (String × List String)) (k : String)
    (v : List String) :
    d.any (fun p => p.1 == k) = true →
    lookupDup (d.map (fun p => if p.1 == k then (k, v) else p)) k = Option.some v := by
  induction d with
  | nil => intro h; simp at h
  | cons q rest ih =>
      intro hany
      rw [List.map_cons, lookupDup_cons]
      by_cases hq : (q.1 == k) = true
      · rw [if_pos hq]
        show (if (k == k) = true then Option.some v
            else lookupDup (rest.map fun p => if p.1 == k then (k, v) else p) k) =
          Option.some v
        simp
      · have hrest : rest.any (fun p => p.1 == k) = true := by
          simpa [List.any_cons, hq] using hany
        rw [if_neg hq, if_neg hq]
        exact ih hrest

/-- `storeDup` stores exactly under its key and nothing else. -/
theorem lookupDup_storeDup (d : List (String × List String)) (k : String)
    (v : List String) (j : String) :
    lookupDup (storeDup d k v) j =
      if k == j then Option.some v else lookupDup d j := by
  unfold storeDup
  by_cases hany : d.any (fun p => p.1 == k) = true
  · rw [if_pos hany]
    by_cases hj : (k == j) = true
    · have hjk : k = j := beq_iff_eq.mp hj
      subst hjk
      rw [if_pos hj, lookupDup_mapReplace_eq d k v hany]
    · rw [if_neg (by simpa using hj),
        lookupDup_mapReplace_ne d k v j (by simpa using hj)]
  · rw [if_neg hany]
    by_cases hj : (k == j) = true
    · have hjk : k = j := beq_iff_eq.mp hj
      have hfd : List.find? (fun p => p.1 == j) d = Option.none := by
        rw [List.find?_eq_none]
        intro x hx hxj
        exact hany (List.any_eq_true.mpr ⟨x, hx, by rw [hjk]; exact hxj⟩)
      unfold lookupDup
      rw [List.find?_append, hfd, if_pos hj]
      simp [List.find?, hj]
    · have hfs : List.find? (fun p => p.1 == j) [(k, v)] = Option.none := by
        simp [List.find?, hj]
      unfold lookupDup
      rw [List.find?_append, hfs, if_neg (by simpa using hj)]
      simp

/-- A key absent from the collection is absent from its key list. -/
theorem not_mem_keys_of_not_containsId {m : EntityMap} {k : String}
    (h : containsId m k = false) : k ∉ m.map (fun q => q.1) := by
  intro hmem
  obtain ⟨p, hp, hk⟩ := List.mem_map.mp hmem
  have : m.any (fun q => q.1 == k) = true :=
    List.any_eq_true.mpr ⟨p, hp, by simp [hk]⟩
  rw [containsId] at h
  rw [this] at h
  cases h

/-- On the very first duplicate the stored list is the winner's path then
the new path. -/
theorem dupListAfter_first (w : Entity) (p : String) :
    dupListAfter (Option.some w) [] p = [w.file_path, p] := by
  simp [dupListAfter]

/-- On later duplicates the new path is just appended. -/
theorem dupListAfter_later (wo : Option Entity) (a : String) (l : List String)
    (p : String) :
    dupListAfter wo (a :: l) p = a :: l ++ [p] := by
  unfold dupListAfter
  have hlen : (((a :: l) ++ [p]).length == 1) = false := by
    rw [beq_eq_false_iff_ne]
    simp
  rw [hlen]
  simp

/-- One loader step preserves the loader invariant, the discovery list
growing by the step's discovery. -/
theorem loadStep_inv (ds : List Entity) (st : LoaderState) (ent : Option Entity)
    (h : LoaderInv ds st) : LoaderInv (ds ++ ent.toList) (loadStep st ent) := by
  obtain ⟨hlook, hdup, hnd⟩ := h
  cases ent with
  | none => simpa using And.intro hlook (And.intro hdup hnd)
  | some e =>
      rw [show (Option.some e).toList = [e] from rfl]
      by_cases hc : containsId st.entities e.id = true
      · obtain ⟨w, os, hocc⟩ : ∃ w os, occs ds e.id = w :: os := by
          cases hoc : occs ds e.id with
          | nil =>
              rw [containsId_eq_isSome, hlook, hoc] at hc
              simp at hc
          | cons w os => exact ⟨w, os, rfl⟩
        have hw : lookupEntity st.entities e.id = Option.some w := by
          rw [hlook, hocc]
          rfl
        have hstep : loadStep st (Option.some e) = { st with duplicates :=
            (storeDup st.duplicates e.id
              (dupListAfter (lookupEntity st.entities e.id)
                ((lookupDup st.duplicates e.id).getD []) e.file_path)) } := by
          simp only [loadStep]
          rw [if_pos hc]
        rw [hstep]
        refine ⟨fun i => ?_, fun i => ?_, hnd⟩
        · rw [occs_append]
          by_cases hi : (e.id == i) = true
          · have hie : e.id = i := beq_iff_eq.mp hi
            subst hie
            rw [if_pos hi, hlook, hocc]
            simp
          · rw [if_neg hi, List.append_nil]
            exact hlook i
        · show lookupDup (storeDup st.duplicates e.id
              (dupListAfter (lookupEntity st.entities e.id)
                ((lookupDup st.duplicates e.id).getD []) e.file_path)) i =
            dupSpec (ds ++ [e]) i
          rw [lookupDup_storeDup]
          by_cases hi : (e.id == i) = true
          · have hie : e.id = i := beq_iff_eq.mp hi
            subst hie
            rw [if_pos hi, hw, hdup]
            cases os with
            | nil =>
                have hcur : (dupSpec ds e.id).getD [] = [] := by
                  unfold dupSpec
                  rw [hocc]
                  rfl
                rw [hcur, dupListAfter_first]
                unfold dupSpec
                rw [occs_append, hocc, if_pos hi]
                simp
            | cons o os2 =>
                have hcur : (dupSpec ds e.id).getD [] =
                    w.file_path :: (o :: os2).map (fun q => q.file_path) := by
                  unfold dupSpec
                  rw [hocc]
                  rfl
                rw [hcur, dupListAfter_later]
                unfold dupSpec
                rw [occs_append, hocc, if_pos hi]
                simp
          · rw [if_neg hi, hdup]
            unfold dupSpec
            rw [occs_append, if_neg hi, List.append_nil]
      · have hcf : containsId st.entities e.id = false := by simpa using hc
        have hnone : lookupEntity st.entities e.id = Option.none := by
          cases hl : lookupEntity st.entities e.id with
          | none => rfl
          | some q =>
              rw [containsId_eq_isSome, hl] at hcf
              simp at hcf
        have hoccnil : occs ds e.id = [] := by
          have hh := hlook e.id
          rw [hnone] at hh
          cases hoc : occs ds e.id with
          | nil => rfl
          | cons a l =>
              rw [hoc] at hh
              simp at hh
        have hstep : loadStep st (Option.some e) =
            { st with entities := st.entities ++ [(e.id, e)] } := by
          simp only [loadStep]
          rw [if_neg hc]
        rw [hstep]
        refine ⟨fun i => ?_, fun i => ?_, ?_⟩
        · show lookupEntity (st.entities ++ [(e.id, e)]) i = (occs (ds ++ [e]) i).head?
          rw [lookupEntity_append, occs_append]
          by_cases hi : (e.id == i) = true
          · have hie : e.id = i := beq_iff_eq.mp hi
            subst hie
            rw [hnone, hoccnil, if_pos hi]
            simp
          · rw [if_neg hi, if_neg hi, hlook, List.append_nil]
            simp
        · show lookupDup st.duplicates i = dupSpec (ds ++ [e]) i
          rw [hdup]
          by_cases hi : (e.id == i) = true
          · have hie : e.id = i := beq_iff_eq.mp hi
            subst hie
            unfold dupSpec
            rw [occs_append, hoccnil, if_pos hi]
            simp
          · unfold dupSpec
            rw [occs_append, if_neg hi, List.append_nil]
        · show ((st.entities ++ [(e.id, e)]).map (fun q => q.1)).Nodup
          simp only [List.map_append, List.map_cons, List.map_nil]
          rw [List.nodup_append]
          refine ⟨hnd, List.nodup_singleton _, ?_⟩
          rw [List.disjoint_singleton]
          exact not_mem_keys_of_not_containsId hcf

/-- Folding the loader over a file list preserves the invariant,
accumulating the discoveries. -/
theorem load_folder_inv (files : List (Option Entity)) :
    ∀ (ds : List Entity) (st : LoaderState), LoaderInv ds st →
      LoaderInv (ds ++ discovered files) (load_folder files st) := by
  induction files with
  | nil =>
      intro ds st h
      simpa [discovered, load_folder] using h
  | cons f fs ih =>
      intro ds st h
      have hdisc : discovered (f :: fs) = f.toList ++ discovered fs := by
        cases f <;> simp [discovered]
      rw [hdisc, ← List.append_assoc]
      exact ih (ds ++ f.toList) (loadStep st f) (loadStep_inv ds st f h)

/-- The empty loader state satisfies the invariant for no discoveries. -/
theorem loaderInv_init : LoaderInv [] ⟨[], []⟩ :=
  ⟨fun _ => rfl, fun _ => rfl, List.nodup_nil⟩

/-- Claim C5: after a load pass the collection's keys are unique, each id
maps to the first entity discovered for it (first-loaded wins), and every
id discovered two or more times has a duplicates entry holding the winner's
file path followed by the path of every later discovery, in order. -/
theorem claim_C5_first_loaded_wins (files : List (Option Entity)) :
    ((load_folder files ⟨[], []⟩).entities.map (fun q => q.1)).Nodup ∧
    (∀ i, lookupEntity (load_folder files ⟨[], []⟩).entities i =
      (occs (discovered files) i).head?) ∧
    (∀ i w rest, occs (discovered files) i = w :: rest → rest ≠ [] →
      lookupDup (load_folder files ⟨[], []⟩).duplicates i =
        Option.some (w.file_path :: rest.map (fun q => q.file_path))) := by
  have h := load_folder_inv files [] ⟨[], []⟩ loaderInv_init
  rw [List.nil_append] at h
  obtain ⟨hlook, hdup, hnd⟩ := h
  refine ⟨hnd, hlook, ?_⟩
  intro i w rest hocc hne
  rw [hdup i]
  unfold dupSpec
  rw [hocc]
  cases rest with
  | nil => exact absurd rfl hne
  | cons a l => rfl

/-- Claim C5 witness: two sources both declaring id "M-001" (paths "a.md"
then "b.md") leave one "M-001" record, looked up as the first one, and a
duplicates entry listing both paths in order. -/
theorem claim_C5_first_loaded_wins_witness :
    lookupDup (load_folder
      [Option.some ⟨"M-001", "milestone", "", "", "a.md", Option.none,
          [], [], [], [], [], Option.none, []⟩,
       Option.none,
       Option.some ⟨"M-001", "milestone", "", "", "b.md", Option.none,
          [], [], [], [], [], Option.none, []⟩] ⟨[], []⟩).duplicates "M-001" =
      Option.some ["a.md", "b.md"] :=
  (claim_C5_first_loaded_wins _).2.2 "M-001"
    ⟨"M-001", "milestone", "", "", "a.md", Option.none,
      [], [], [], [], [], Option.none, []⟩
    [⟨"M-001", "milestone", "", "", "b.md", Option.none,
      [], [], [], [], [], Option.none, []⟩]
    rfl (List.cons_ne_nil _ _)
